import Mathlib

/-!
Shallow embedding of `mysqldump_to_csv.py`: a single-pass converter that reads
SQL dump lines, accumulates `INSERT INTO ... VALUES ...;` statements, extracts
configured fields from each parenthesized row-group and writes them as CSV rows,
rotating output files every `LINES_PER_FILE` rows.

Text is modelled as `List Char`; Python string operations (`strip`, `partition`,
`rstrip`) and the two regular expressions (`re.split(r"\),\s*\(", ...)` and
`re.findall(r"(?:'([^']*)'|NULL|\d+)", ...)`) are embedded as executable
functions.  The regex scanners take a fuel argument equal to the input length so
that they are structurally recursive and evaluate inside the kernel; each scan
step consumes at least one input character, so the fuel never runs out.
-/

/-- Python whitespace characters recognised by `str.strip()` (ASCII subset). -/
def isPySpace (c : Char) : Bool :=
  c == ' ' || c == '\t' || c == '\n' || c == '\r' || c == '\x0b' || c == '\x0c'

/-- Remove trailing characters satisfying `p` (Python `str.rstrip`). -/
def rstripP (p : Char → Bool) (l : List Char) : List Char :=
  (l.reverse.dropWhile p).reverse

/-- Python `str.strip()` with no argument: strip whitespace on both sides. -/
def pyStrip (l : List Char) : List Char :=
  rstripP isPySpace (l.dropWhile isPySpace)

/-- Python `.rstrip(';')` as used in `get_values` (line 43). -/
def rstripSemi (l : List Char) : List Char :=
  rstripP (fun c => c == ';') l

/-- Python `.strip("()")` as used in `parse_values` (line 48): removes all
leading and trailing parenthesis characters of either kind. -/
def stripParens (l : List Char) : List Char :=
  rstripP (fun c => c == '(' || c == ')') (l.dropWhile (fun c => c == '(' || c == ')'))

/-- The third component of Python `statement.partition(sep)`: the text after the
first occurrence of `sep`, or the empty string when `sep` does not occur
(line 42 of the source, with `sep = " VALUES "`). -/
def afterFirst (sep : List Char) : List Char → List Char
  | [] => []
  | c :: rest =>
    if sep.isPrefixOf (c :: rest) then (c :: rest).drop sep.length
    else afterFirst sep rest

/-- Embedding of `get_values` (lines 40-43):
`statement.partition(' VALUES ')[2].strip().rstrip(';')`. -/
def get_values (stmt : List Char) : List Char :=
  rstripSemi (pyStrip (afterFirst " VALUES ".data stmt))

/-- One attempted match of the row-group separator regex `\),\s*\(` at the head
of the input: a close paren, a comma, a maximal run of whitespace, then an open
paren.  Returns the rest of the input after the match.  (Backtracking into the
whitespace run cannot help, because no whitespace character is `(`.) -/
def matchSep : List Char → Option (List Char)
  | ')' :: ',' :: rest =>
    match rest.dropWhile isPySpace with
    | '(' :: r => some r
    | _ => none
  | _ => none

/-- Left-to-right scan of `re.split(r"\),\s*\(", s)` (line 48): pieces between
non-overlapping leftmost matches of the separator.  `acc` holds the current
piece reversed; `fuel` bounds the recursion (a match consumes at least three
characters, a failed position one, so `fuel = input length` suffices). -/
def splitRowsGo : Nat → List Char → List Char → List (List Char)
  | 0, acc, l => [acc.reverse ++ l]
  | _ + 1, acc, [] => [acc.reverse]
  | fuel + 1, acc, c :: rest =>
    match matchSep (c :: rest) with
    | some r => acc.reverse :: splitRowsGo fuel [] r
    | none => splitRowsGo fuel (c :: acc) rest

/-- Embedding of `re.split(r"\),\s*\(", s)`: split `s` into row-group pieces. -/
def splitRowGroups (l : List Char) : List (List Char) :=
  splitRowsGo l.length [] l

/-- A token matched by the value regex `(?:'([^']*)'|NULL|\d+)` (line 52):
a single-quoted string, the literal `NULL`, or a bare digit run. -/
inductive Token where
  | quoted (s : List Char)
  | nullTok
  | num (s : List Char)
deriving DecidableEq

/-- What `re.findall` returns for one match of `(?:'([^']*)'|NULL|\d+)`: the
pattern has exactly one capture group (the quoted-string contents), so findall
yields the group text; when the match came from the `NULL` or `\d+` alternative
the group did not participate and findall yields the empty string. -/
def Token.captured : Token → List Char
  | .quoted s => s
  | .nullTok => []
  | .num _ => []

/-- One attempted match of the value regex at the head of the input, trying the
alternatives in order: quoted string (requires a closing quote; `[^']*` consumes
exactly up to the next quote), then `NULL`, then a maximal digit run.  Returns
the token and the rest of the input after the match. -/
def matchTok : List Char → Option (Token × List Char)
  | '\'' :: rest =>
    match rest.dropWhile (fun c => c != '\'') with
    | '\'' :: r => some (.quoted (rest.takeWhile (fun c => c != '\'')), r)
    | _ => none
  | 'N' :: 'U' :: 'L' :: 'L' :: rest => some (.nullTok, rest)
  | c :: rest =>
    if c.isDigit then some (.num (c :: rest.takeWhile Char.isDigit), rest.dropWhile Char.isDigit)
    else none
  | [] => none

/-- Left-to-right scan of `re.findall(r"(?:'([^']*)'|NULL|\d+)", row)`: collect
non-overlapping leftmost matches, advancing one character past positions where
no alternative matches.  `fuel = input length` suffices since every step
consumes at least one character. -/
def findTokensGo : Nat → List Char → List Token
  | 0, _ => []
  | _ + 1, [] => []
  | fuel + 1, c :: rest =>
    match matchTok (c :: rest) with
    | some (t, r) => t :: findTokensGo fuel r
    | none => findTokensGo fuel rest

/-- Embedding of line 52: the token list extracted from one row-group. -/
def findTokens (row : List Char) : List Token :=
  findTokensGo row.length row

/-- The `columns` list of line 52: what `re.findall` actually returns — the
capture-group text of each match, as strings. -/
def columnsOf (row : List Char) : List String :=
  (findTokens row).map (fun t => String.mk t.captured)

/-- One entry of the list comprehension on lines 55-58:
`columns[index] if index < len(columns) and columns[index] != "NULL" else ""`. -/
def fieldValue (cols : List String) (idx : Nat) : String :=
  match cols[idx]? with
  | some v => if v = "NULL" then "" else v
  | none => ""

/-- The `result_row` list comprehension (lines 55-58), parameterised by the
field schema (`REQUIRED_FIELDS.items()` in the source). -/
def mapRow (fields : List (String × Nat)) (cols : List String) : List String :=
  fields.map (fun fi => fieldValue cols fi.2)

/-- The configured field schema `REQUIRED_FIELDS` (lines 15-30), in the
source's insertion order (Python dictionaries preserve insertion order). -/
def REQUIRED_FIELDS : List (String × Nat) :=
  [("LOGIN", 2), ("NAME", 6), ("LAST_NAME", 7), ("EMAIL", 8),
   ("PERSONAL_BIRTHDATE", 16), ("TIMESTAMP_X", 1), ("PERSONAL_PHONE", 18),
   ("PERSONAL_MOBILE", 20), ("PERSONAL_MAILBOX", 23), ("PERSONAL_CITY", 24),
   ("PERSONAL_STATE", 25), ("WORK_CITY", 37), ("PASSWORD", 3), ("CHECKWORD", 4)]

/-- The per-file row threshold `LINES_PER_FILE` (line 32). -/
def LINES_PER_FILE : Nat := 10000

/-- Result of one `parse_values` call: the rows passed to `writer.writerow` (in
order), the boolean returned to signal a file switch, and the final value of
`line_counter[0]`. -/
structure PVResult where
  written : List (List String)
  rotate : Bool
  counter : Nat
deriving DecidableEq

/-- The `for row in rows` loop of `parse_values` (lines 50-67): map each
row-group, write it, increment the counter; when the counter reaches the limit,
reset it to zero and return `True` immediately (abandoning any remaining
row-groups of the statement); otherwise continue, returning `False` at the
end. -/
def parseValuesLoop (fields : List (String × Nat)) (limit : Nat) :
    List (List Char) → Nat → PVResult
  | [], c => ⟨[], false, c⟩
  | row :: rest, c =>
    let result_row := mapRow fields (columnsOf row)
    if limit ≤ c + 1 then ⟨[result_row], true, 0⟩
    else
      let r := parseValuesLoop fields limit rest (c + 1)
      ⟨result_row :: r.written, r.rotate, r.counter⟩

/-- Embedding of `parse_values` (lines 46-67): split the (paren-stripped) value
text into row-groups and run the writing loop. -/
def parse_values (fields : List (String × Nat)) (limit : Nat)
    (values : List Char) (c : Nat) : PVResult :=
  parseValuesLoop fields limit (splitRowGroups (stripParens values)) c

/-- Python list indexing `columns[index]`, which raises `IndexError` when the
index is out of range; used to show the pipeline's bounds guard makes the
exceptional path unreachable. -/
def pyIndex (cols : List String) (idx : Nat) : Except String String :=
  match cols[idx]? with
  | some v => Except.ok v
  | none => Except.error "list index out of range"

/-- Exception-aware version of one comprehension entry (line 56), performing
the two guarded `columns[index]` accesses exactly where Python evaluates
them: inside the condition (after the `index < len(columns)` short-circuit)
and again in the selected branch. -/
def fieldValueE (cols : List String) (idx : Nat) : Except String String :=
  if idx < cols.length then do
    let v ← pyIndex cols idx
    if v = "NULL" then pure "" else pyIndex cols idx
  else pure ""

/-- Exception-aware version of the `result_row` comprehension (lines 55-58). -/
def mapRowE : List (String × Nat) → List String → Except String (List String)
  | [], _ => Except.ok []
  | fi :: rest, cols => do
    let v ← fieldValueE cols fi.2
    let vs ← mapRowE rest cols
    pure (v :: vs)

/-- Exception-aware version of the `parse_values` loop (lines 50-67). -/
def parseValuesLoopE (fields : List (String × Nat)) (limit : Nat) :
    List (List Char) → Nat → Except String PVResult
  | [], c => Except.ok ⟨[], false, c⟩
  | row :: rest, c => do
    let result_row ← mapRowE fields (columnsOf row)
    if limit ≤ c + 1 then pure ⟨[result_row], true, 0⟩
    else do
      let r ← parseValuesLoopE fields limit rest (c + 1)
      pure ⟨result_row :: r.written, r.rotate, r.counter⟩

/-- Exception-aware embedding of `parse_values` (lines 46-67). -/
def parse_valuesE (fields : List (String × Nat)) (limit : Nat)
    (values : List Char) (c : Nat) : Except String PVResult :=
  parseValuesLoopE fields limit (splitRowGroups (stripParens values)) c

/-- Embedding of `process_insert` (lines 70-77): run `get_values` and
`parse_values` under `try`; on an exception print one diagnostic and return
`False`.  The second component counts diagnostics emitted to stderr. -/
def process_insert (fields : List (String × Nat)) (limit : Nat)
    (stmt : List Char) (c : Nat) : PVResult × Nat :=
  match parse_valuesE fields limit (get_values stmt) c with
  | Except.ok r => (r, 0)
  | Except.error _ => (⟨[], false, c⟩, 1)

/-- Embedding of `is_insert` (lines 35-37): does the stripped line start with
the statement introducer `INSERT INTO`? -/
def is_insert (line : List Char) : Bool :=
  "INSERT INTO".data.isPrefixOf (pyStrip line)

/-- State of the `main` loop (lines 80-116): the statement buffer, the closed
output files (each a list of rows), the currently open file's rows, the row
counter `line_counter[0]` of that file, and the log of statements flushed to
`process_insert` (in order).  The file-sequence counter of the source is the
length of `files`. -/
structure MState where
  buffer : List Char
  files : List (List (List String))
  current : List (List String)
  counter : Nat
  flushed : List String
deriving DecidableEq

/-- The header row written once at the top of each file (lines 89, 100, 111):
`REQUIRED_FIELDS.keys()` in schema order. -/
def headerRow : List String :=
  REQUIRED_FIELDS.map Prod.fst

/-- Flushing one statement (lines 95-101 and 106-112): call `process_insert`
with the current counter, append the written rows to the open file, and when
it returns `True`, close the file and open a new one with a fresh header.  The
buffer field is left to the caller. -/
def flushStatement (st : MState) (stmt : List Char) : MState :=
  let r := (process_insert REQUIRED_FIELDS LINES_PER_FILE stmt st.counter).1
  { buffer := st.buffer
    files := if r.rotate then st.files ++ [st.current ++ r.written] else st.files
    current := if r.rotate then [headerRow] else st.current ++ r.written
    counter := r.counter
    flushed := st.flushed ++ [String.mk stmt] }

/-- One iteration of the `for line in fileinput.input()` loop (lines 91-112):
strip the line; an introducer line first flushes any pending buffer and then
becomes the new buffer; otherwise, when the buffer is non-empty the line is
appended with a separating space, and if the line ends with `;` the buffer is
flushed and cleared; lines outside any statement are dropped. -/
def mainStep (st : MState) (rawLine : String) : MState :=
  let line := pyStrip rawLine.data
  if is_insert line then
    let st' := if st.buffer.isEmpty then st else flushStatement st st.buffer
    { st' with buffer := line }
  else if st.buffer.isEmpty then st
  else
    let buf := st.buffer ++ ' ' :: line
    if line.getLast? == some ';' then { flushStatement st buf with buffer := [] }
    else { st with buffer := buf }

/-- The initial state (lines 82-89): empty buffer, file 0 open with its header
written, counter zero. -/
def initState : MState :=
  ⟨[], [], [headerRow], 0, []⟩

/-- Embedding of the body of `main` (lines 80-116): fold the loop over the
input lines, flush any remaining buffer at end of input (return value ignored:
no rotation there, lines 113-114), and close the current file. -/
def runMain (lines : List String) : MState :=
  let st := lines.foldl mainStep initState
  let st :=
    if st.buffer.isEmpty then st
    else
      let r := (process_insert REQUIRED_FIELDS LINES_PER_FILE st.buffer st.counter).1
      { st with current := st.current ++ r.written, counter := r.counter,
                flushed := st.flushed ++ [String.mk st.buffer], buffer := [] }
  { st with files := st.files ++ [st.current], current := [] }

/-- Exceptions distinguished by the `try`/`except` around `main`'s body
(lines 117-121): Python's `KeyboardInterrupt` does not inherit from
`Exception`, but `main` catches it explicitly first. -/
inductive PyExc where
  | keyboardInterrupt
  | other (msg : String)
deriving DecidableEq

/-- The exception dispatch of lines 117-121: normal completion falls off the
end of `main` (process status 0); `KeyboardInterrupt` runs `sys.exit(0)`; any
other exception is logged to stderr and runs `sys.exit(1)`.  Returns the exit
status and the stderr lines the handler prints. -/
def mainExitDispatch (body : Except PyExc Unit) : Nat × List String :=
  match body with
  | Except.ok _ => (0, [])
  | Except.error PyExc.keyboardInterrupt => (0, [])
  | Except.error (PyExc.other m) => (1, ["Unhandled exception: " ++ m])

/-- The value text of an insertion statement with `n + 1` single-value
row-groups, written without the outer parentheses: `1),(1),(...,(1`.  Used to
build a concrete statement whose row-group count reaches the file threshold. -/
def repText : Nat → List Char
  | 0 => ['1']
  | n + 1 => '1' :: ')' :: ',' :: '(' :: repText n

/-- A complete one-line insertion statement with `n + 1` row-groups:
`INSERT INTO t VALUES (1),(1),...,(1);`. -/
def stmtOf (n : Nat) : List Char :=
  "INSERT INTO t VALUES ".data ++ '(' :: (repText n ++ [')', ';'])

/-- A single input line carrying a statement with exactly 10000 row-groups —
the per-file threshold.  Because the introducer branch never checks the
terminator, this sole line is flushed only at end of input, where `main`
ignores the rotation signal. -/
def bigLine : String := String.mk (stmtOf 9999)

/-- A well-formed output file: it starts with the header row. -/
def goodFile (f : List (List String)) : Prop :=
  ∃ d, f = headerRow :: d

/-- Invariant of the main loop: every closed file and the currently open file
start with the header row. -/
def filesInv (st : MState) : Prop :=
  (∀ f ∈ st.files, goodFile f) ∧ goodFile st.current

/-! Helper lemmas about the extraction pipeline. -/

/-- The guarded comprehension entry never raises: the exception-aware entry
always succeeds with the pure value. -/
lemma fieldValueE_ok (cols : List String) (idx : Nat) :
    fieldValueE cols idx = Except.ok (fieldValue cols idx) := by
  by_cases h : idx < cols.length
  · have hv : cols[idx]? = some cols[idx] := List.getElem?_eq_getElem h
    unfold fieldValueE fieldValue pyIndex
    rw [if_pos h, hv]
    by_cases hnull : cols[idx] = "NULL"
    · rw [hnull]
      rfl
    · show (if cols[idx] = "NULL" then pure "" else Except.ok cols[idx])
        = Except.ok (if cols[idx] = "NULL" then "" else cols[idx])
      rw [if_neg hnull, if_neg hnull]
  · have hv : cols[idx]? = none := List.getElem?_eq_none (by omega)
    unfold fieldValueE fieldValue pyIndex
    rw [if_neg h, hv]
    rfl

/-- The row comprehension never raises. -/
lemma mapRowE_ok (fields : List (String × Nat)) (cols : List String) :
    mapRowE fields cols = Except.ok (mapRow fields cols) := by
  induction fields with
  | nil => rfl
  | cons fi rest ih =>
    unfold mapRowE
    rw [fieldValueE_ok, ih]
    rfl

/-- The `parse_values` loop never raises. -/
lemma parseValuesLoopE_ok (fields : List (String × Nat)) (limit : Nat)
    (groups : List (List Char)) (c : Nat) :
    parseValuesLoopE fields limit groups c
      = Except.ok (parseValuesLoop fields limit groups c) := by
  induction groups generalizing c with
  | nil => rfl
  | cons g rest ih =>
    unfold parseValuesLoopE parseValuesLoop
    rw [mapRowE_ok]
    by_cases h : limit ≤ c + 1
    · simp only [if_pos h]
      rfl
    · simp only [if_neg h]
      rw [ih]
      rfl

/-- The whole per-statement extraction never raises. -/
lemma parse_valuesE_ok (fields : List (String × Nat)) (limit : Nat)
    (values : List Char) (c : Nat) :
    parse_valuesE fields limit values c
      = Except.ok (parse_values fields limit values c) := by
  unfold parse_valuesE parse_values
  exact parseValuesLoopE_ok ..

/-- Consequently `process_insert` always takes the success branch. -/
lemma process_insert_eq (fields : List (String × Nat)) (limit : Nat)
    (stmt : List Char) (c : Nat) :
    process_insert fields limit stmt c
      = (parse_values fields limit (get_values stmt) c, 0) := by
  unfold process_insert
  rw [parse_valuesE_ok]

/-- Full characterisation of the `parse_values` loop when the counter starts
below the limit: the rows written are the mapped first `limit - c` row-groups,
rotation is signalled exactly when the counter would reach the limit, and the
final counter value. -/
lemma parseValuesLoop_spec (fields : List (String × Nat)) (limit : Nat)
    (groups : List (List Char)) :
    ∀ c, c < limit →
      (parseValuesLoop fields limit groups c).written
          = (groups.take (limit - c)).map (fun g => mapRow fields (columnsOf g)) ∧
      ((parseValuesLoop fields limit groups c).rotate = true
          ↔ limit ≤ c + groups.length) ∧
      (parseValuesLoop fields limit groups c).counter
          = if limit ≤ c + groups.length then 0 else c + groups.length := by
  induction groups with
  | nil =>
    intro c hc
    refine ⟨by simp [parseValuesLoop], ?_, ?_⟩
    · simp [parseValuesLoop]
      omega
    · simp [parseValuesLoop]
      split <;> omega
  | cons g rest ih =>
    intro c hc
    by_cases h1 : limit ≤ c + 1
    · have hlim : limit - c = 1 := by omega
      have hle : limit ≤ c + (rest.length + 1) := by omega
      refine ⟨?_, ?_, ?_⟩ <;>
        simp [parseValuesLoop, if_pos h1, hlim, hle, List.length_cons]
    · have hc' : c + 1 < limit := by omega
      obtain ⟨hw, hr, hcnt⟩ := ih (c + 1) hc'
      have htake : limit - c = (limit - (c + 1)) + 1 := by omega
      refine ⟨?_, ?_, ?_⟩
      · simp only [parseValuesLoop, if_neg h1, htake, List.take_succ_cons,
          List.map_cons]
        rw [hw]
      · simp only [parseValuesLoop, if_neg h1, List.length_cons]
        rw [hr]
        omega
      · simp only [parseValuesLoop, if_neg h1, List.length_cons]
        rw [hcnt]
        by_cases h2 : limit ≤ c + 1 + rest.length
        · rw [if_pos h2, if_pos (by omega)]
        · rw [if_neg h2, if_neg (by omega)]
          omega

/-- The row-group splitter always produces at least one piece (`re.split`
never returns an empty list). -/
lemma splitRowsGo_ne_nil (fuel : Nat) :
    ∀ acc l, splitRowsGo fuel acc l ≠ [] := by
  induction fuel with
  | zero => intro acc l; simp [splitRowsGo]
  | succ n ih =>
    intro acc l
    cases l with
    | nil => simp [splitRowsGo]
    | cons c rest =>
      unfold splitRowsGo
      cases matchSep (c :: rest) with
      | none => exact ih _ _
      | some r => simp

/-- Mapping a row against an empty token list yields an all-empty row. -/
lemma mapRow_nil (fields : List (String × Nat)) :
    mapRow fields [] = fields.map (fun _ => "") := by
  unfold mapRow fieldValue
  simp

/-- When the separator does not occur in the statement, Python's `partition`
yields an empty third component. -/
lemma afterFirst_eq_nil_of_no_occurrence (sep : List Char) :
    ∀ l, ¬ sep <:+: l → afterFirst sep l = [] := by
  intro l
  induction l with
  | nil => intro _; rfl
  | cons c rest ih =>
    intro h
    unfold afterFirst
    rw [if_neg, ih]
    · intro hmem
      exact h ((List.infix_cons_iff).2 (Or.inr hmem))
    · intro hpre
      exact h (List.IsPrefix.isInfix ((List.isPrefixOf_iff_prefix).1 hpre))

/-- Unfolding lemma for `parse_values`. -/
lemma parse_values_def (fields : List (String × Nat)) (limit : Nat)
    (values : List Char) (c : Nat) :
    parse_values fields limit values c
      = parseValuesLoop fields limit (splitRowGroups (stripParens values)) c := rfl

/-- The splitter produces a positive number of pieces. -/
lemma splitRowGroups_length_pos (l : List Char) :
    0 < (splitRowGroups l).length :=
  List.length_pos.2 (splitRowsGo_ne_nil _ _ _)

/-- Flushing a statement preserves the header invariant. -/
lemma flushStatement_inv (st : MState) (stmt : List Char) (h : filesInv st) :
    filesInv (flushStatement st stmt) := by
  obtain ⟨hf, d, hc⟩ := h
  have hcur : goodFile (st.current
      ++ (process_insert REQUIRED_FIELDS LINES_PER_FILE stmt st.counter).1.written) :=
    ⟨d ++ (process_insert REQUIRED_FIELDS LINES_PER_FILE stmt st.counter).1.written,
      by rw [hc, List.cons_append]⟩
  unfold flushStatement filesInv
  by_cases hrot : (process_insert REQUIRED_FIELDS LINES_PER_FILE stmt st.counter).1.rotate
  · simp only [hrot, if_true]
    refine ⟨?_, ⟨[], rfl⟩⟩
    intro f hmem
    rcases List.mem_append.1 hmem with hm | hm
    · exact hf f hm
    · rw [List.mem_singleton.1 hm]
      exact hcur
  · simp only [Bool.not_eq_true] at hrot
    simp only [hrot, Bool.false_eq_true, if_false]
    exact ⟨hf, hcur⟩

/-- Replacing the statement buffer leaves the header invariant untouched. -/
lemma filesInv_set_buffer (st : MState) (b : List Char) :
    filesInv { st with buffer := b } ↔ filesInv st := Iff.rfl

/-- One loop iteration preserves the header invariant. -/
lemma mainStep_inv (st : MState) (line : String) (h : filesInv st) :
    filesInv (mainStep st line) := by
  have hfl := flushStatement_inv st st.buffer h
  have hfl2 := flushStatement_inv st (st.buffer ++ ' ' :: pyStrip line.data) h
  simp only [mainStep]
  generalize hY : flushStatement st st.buffer = Y at hfl ⊢
  generalize hZ : flushStatement st (st.buffer ++ ' ' :: pyStrip line.data) = Z at hfl2 ⊢
  by_cases h1 : is_insert (pyStrip line.data) = true
  · by_cases h2 : st.buffer.isEmpty = true
    · simp only [h1, h2, eq_self_iff_true, if_true]
      exact h
    · simp only [h1, h2, eq_self_iff_true, if_true, if_false]
      exact hfl
  · by_cases h2 : st.buffer.isEmpty = true
    · simp only [h1, h2, eq_self_iff_true, if_true, if_false]
      exact h
    · by_cases h3 : ((pyStrip line.data).getLast? == some ';') = true
      · simp only [h1, h2, h3, eq_self_iff_true, if_true, if_false]
        exact hfl2
      · simp only [h1, h2, h3, eq_self_iff_true, if_true, if_false]
        exact h

/-- The loop fold preserves the header invariant. -/
lemma foldl_inv (lines : List String) :
    ∀ st, filesInv st → filesInv (lines.foldl mainStep st) := by
  induction lines with
  | nil => intro st h; exact h
  | cons l rest ih =>
    intro st h
    exact ih _ (mainStep_inv st l h)

/-- The flush log gains exactly the flushed statement. -/
lemma flushStatement_flushed (st : MState) (stmt : List Char) :
    (flushStatement st stmt).flushed = st.flushed ++ [String.mk stmt] := rfl

/-! Computation lemmas for the concrete threshold-sized statement `stmtOf n`.
The separator `" VALUES "` sits at a fixed position inside the concrete prefix
of `stmtOf n`, so `afterFirst` reduces definitionally without ever forcing the
large value text. -/

/-- Locating the values portion of `stmtOf n`. -/
lemma afterFirst_stmtOf (n : Nat) :
    afterFirst " VALUES ".data (stmtOf n) = '(' :: (repText n ++ [')', ';']) := rfl

/-- Length of the repeated value text. -/
lemma repText_length (n : Nat) : (repText n).length = 4 * n + 1 := by
  induction n with
  | zero => rfl
  | succ n ih => simp [repText, ih]; omega

/-- The repeated value text starts with a digit. -/
lemma repText_head (n : Nat) : ∃ t, repText n = '1' :: t := by
  cases n with
  | zero => exact ⟨[], rfl⟩
  | succ n => exact ⟨_, rfl⟩

/-- The repeated value text ends with a digit. -/
lemma repText_reverse_head (n : Nat) : ∃ t, (repText n).reverse = '1' :: t := by
  induction n with
  | zero => exact ⟨[], rfl⟩
  | succ n ih =>
    obtain ⟨t, ht⟩ := ih
    refine ⟨t ++ ['(', ',', ')', '1'], ?_⟩
    simp [repText, ht, List.append_assoc]

/-- Stripping from the right does nothing when the last character is kept. -/
lemma rstripP_concat (p : Char → Bool) (l : List Char) (x : Char) (h : p x = false) :
    rstripP p (l ++ [x]) = l ++ [x] := by
  unfold rstripP
  rw [List.reverse_append]
  simp [List.dropWhile_cons, h]

/-- Stripping from the right removes one stripped character and stops. -/
lemma rstripP_concat2 (p : Char → Bool) (l : List Char) (x y : Char)
    (hx : p x = false) (hy : p y = true) :
    rstripP p ((l ++ [x]) ++ [y]) = l ++ [x] := by
  unfold rstripP
  rw [List.reverse_append, List.reverse_append]
  simp [List.dropWhile_cons, hx, hy]

/-- `dropWhile` keeps a list whose head fails the predicate. -/
lemma dropWhile_cons_false (p : Char → Bool) (c : Char) (l : List Char) (h : p c = false) :
    List.dropWhile p (c :: l) = c :: l := by
  simp [List.dropWhile_cons, h]

/-- `dropWhile` drops a head that satisfies the predicate. -/
lemma dropWhile_cons_true (p : Char → Bool) (c : Char) (l : List Char) (h : p c = true) :
    List.dropWhile p (c :: l) = List.dropWhile p l := by
  simp [List.dropWhile_cons, h]

/-- Whitespace stripping does nothing when both end characters are kept. -/
lemma pyStrip_of_ends (c : Char) (l : List Char) (x : Char)
    (hc : isPySpace c = false) (hx : isPySpace x = false) :
    pyStrip ((c :: l) ++ [x]) = (c :: l) ++ [x] := by
  unfold pyStrip
  rw [List.cons_append, dropWhile_cons_false _ _ _ hc, ← List.cons_append,
    rstripP_concat _ _ _ hx]

/-- The big statement has no surrounding whitespace. -/
lemma pyStrip_stmtOf (n : Nat) : pyStrip (stmtOf n) = stmtOf n := by
  have h2 : stmtOf n
      = ('I' :: ("NSERT INTO t VALUES ".data ++ '(' :: (repText n ++ [')']))) ++ [';'] := by
    show 'I' :: ("NSERT INTO t VALUES ".data ++ '(' :: (repText n ++ [')', ';'])) = _
    simp [List.append_assoc]
  rw [h2, pyStrip_of_ends _ _ _ (by decide) (by decide)]

/-- The values portion of the big statement after stripping the terminator. -/
lemma get_values_stmtOf (n : Nat) :
    get_values (stmtOf n) = ('(' :: repText n) ++ [')'] := by
  unfold get_values
  rw [afterFirst_stmtOf]
  have h3 : ('(' :: (repText n ++ [')', ';']))
      = ('(' :: (repText n ++ [')'])) ++ [';'] := by
    simp [List.append_assoc]
  rw [h3, pyStrip_of_ends _ _ _ (by decide) (by decide)]
  have h4 : ('(' :: (repText n ++ [')'])) ++ [';']
      = (('(' :: repText n) ++ [')']) ++ [';'] := by
    simp
  rw [h4]
  unfold rstripSemi
  rw [rstripP_concat2 _ _ _ _ (by decide) (by decide)]

/-- Stripping the outer parentheses of the parenthesised value list. -/
lemma stripParens_wrap (n : Nat) :
    stripParens (('(' :: repText n) ++ [')']) = repText n := by
  obtain ⟨t, ht⟩ := repText_head n
  obtain ⟨t2, ht2⟩ := repText_reverse_head n
  unfold stripParens
  rw [List.cons_append, dropWhile_cons_true _ _ _ (by decide)]
  rw [ht, List.cons_append, dropWhile_cons_false _ _ _ (by decide), ← List.cons_append, ← ht]
  unfold rstripP
  rw [List.reverse_append]
  simp only [List.reverse_cons, List.reverse_nil, List.nil_append, List.singleton_append]
  rw [dropWhile_cons_true _ _ _ (by decide), ht2,
    dropWhile_cons_false _ _ _ (by decide), ← ht2, List.reverse_reverse]

/-- The separator regex fails on a digit head. -/
lemma matchSep_one (Z : List Char) : matchSep ('1' :: Z) = none := rfl

/-- The separator regex matches `),(` with no whitespace. -/
lemma matchSep_hit (A : List Char) : matchSep (')' :: ',' :: '(' :: A) = some A := rfl

/-- The splitter on exhausted input emits the pending piece. -/
lemma splitRowsGo_nil_acc (fuel : Nat) (acc : List Char) :
    splitRowsGo fuel acc [] = [acc.reverse] := by
  cases fuel <;> simp [splitRowsGo]

/-- The splitter cuts the repeated value text into `n + 1` singleton pieces. -/
lemma splitRowsGo_repText (n : Nat) :
    ∀ fuel, (repText n).length ≤ fuel →
      splitRowsGo fuel [] (repText n) = List.replicate (n + 1) ['1'] := by
  induction n with
  | zero =>
    intro fuel h
    rw [repText_length] at h
    obtain ⟨f, rfl⟩ : ∃ f, fuel = f + 1 := ⟨fuel - 1, by omega⟩
    show splitRowsGo (f + 1) [] ['1'] = [['1']]
    simp [splitRowsGo, matchSep_one, splitRowsGo_nil_acc]
  | succ n ih =>
    intro fuel h
    rw [repText_length] at h
    obtain ⟨f, rfl, hf⟩ : ∃ f, fuel = f + 2 ∧ (repText n).length ≤ f :=
      ⟨fuel - 2, by omega, by rw [repText_length]; omega⟩
    show splitRowsGo (f + 1 + 1) [] (repText (n + 1)) = _
    rw [show repText (n + 1) = '1' :: ')' :: ',' :: '(' :: repText n from rfl]
    simp only [splitRowsGo, matchSep_one, matchSep_hit]
    rw [ih f hf]
    simp [List.replicate_succ]

/-- Row-group splitting of the repeated value text. -/
lemma splitRowGroups_repText (n : Nat) :
    splitRowGroups (repText n) = List.replicate (n + 1) ['1'] :=
  splitRowsGo_repText n (repText n).length le_rfl

/-- Processing the big statement runs the writing loop on `n + 1` singleton
row-groups. -/
lemma process_insert_stmtOf (n c : Nat) :
    process_insert REQUIRED_FIELDS LINES_PER_FILE (stmtOf n) c
      = (parseValuesLoop REQUIRED_FIELDS LINES_PER_FILE (List.replicate (n + 1) ['1']) c, 0) := by
  rw [process_insert_eq, parse_values_def, get_values_stmtOf, stripParens_wrap,
    splitRowGroups_repText]

/-- A run on a single stripped introducer line buffers it and processes it only
at end of input, where the rotation signal is discarded: the run produces
exactly one file containing the header and the written rows. -/
lemma runMain_single (l : String)
    (hstrip : pyStrip l.data = l.data)
    (hins : is_insert l.data = true)
    (hne : l.data.isEmpty = false) :
    (runMain [l]).files
        = [headerRow :: (process_insert REQUIRED_FIELDS LINES_PER_FILE l.data 0).1.written] ∧
    (runMain [l]).counter
        = (process_insert REQUIRED_FIELDS LINES_PER_FILE l.data 0).1.counter := by
  have hms : mainStep initState l = ⟨l.data, [], [headerRow], 0, []⟩ := by
    simp only [mainStep, hstrip, hins, initState, if_true, eq_self_iff_true,
      List.isEmpty_nil]
  unfold runMain
  rw [List.foldl_cons, List.foldl_nil, hms]
  simp only [hne, Bool.false_eq_true, if_false]
  constructor
  · simp
  · simp

/-! Claim theorems. -/

/-- C10: for every statement text, the extraction pipeline (values-portion
location, row-group splitting, token extraction, and the field-to-index mapping
with its bounds guard) is total and never raises — the exception-aware pipeline
always returns `ok` of the pure pipeline's result, so `process_insert`'s error
branch (the only source of a diagnostic) is never taken for any statement
shape. -/
theorem c10_pipeline_total (fields : List (String × Nat)) (limit : Nat)
    (stmt : List Char) (c : Nat) :
    parse_valuesE fields limit (get_values stmt) c
      = Except.ok (parse_values fields limit (get_values stmt) c) ∧
    (process_insert fields limit stmt c).2 = 0 := by
  refine ⟨parse_valuesE_ok .., ?_⟩
  rw [process_insert_eq]

/-- C7: for every configured field whose index is out of range of the extracted
token list, or whose token at that index is the null marker, the output value at
that field's position in the mapped row is the empty string. -/
theorem c7_oob_or_null_empty (fields : List (String × Nat)) (row : List Char)
    (i : Nat) (fname : String) (idx : Nat)
    (hf : fields[i]? = some (fname, idx))
    (h : (findTokens row).length ≤ idx
        ∨ (findTokens row)[idx]? = some Token.nullTok) :
    (mapRow fields (columnsOf row))[i]? = some "" := by
  have hmap : (mapRow fields (columnsOf row))[i]?
      = (fields[i]?).map (fun fi => fieldValue (columnsOf row) fi.2) := by
    unfold mapRow
    exact List.getElem?_map ..
  rw [hmap, hf]
  show some (fieldValue (columnsOf row) idx) = some ""
  unfold fieldValue
  rcases h with h | h
  · have hnone : (columnsOf row)[idx]? = none := by
      apply List.getElem?_eq_none
      unfold columnsOf
      rw [List.length_map]
      exact h
    rw [hnone]
  · have hsome : (columnsOf row)[idx]? = some "" := by
      unfold columnsOf
      rw [List.getElem?_map, h]
      rfl
    rw [hsome]
    rfl

/-- Witness for C7 at a concrete input: the single token of the row text
`NULL` is the null marker, and the mapped value of a field with index 0 is the
empty string. -/
theorem c7_witness :
    (findTokens "NULL".data)[0]? = some Token.nullTok ∧
    (mapRow [("X", 0)] (columnsOf "NULL".data))[0]? = some "" :=
  ⟨by decide,
    c7_oob_or_null_empty [("X", 0)] "NULL".data 0 "X" 0 (by decide)
      (Or.inr (by decide))⟩

/-- C9: a statement that does not contain the values-introducer substring
produces, with no error reported, exactly one output row in which every
configured field's value is the empty string (the values portion partitions to
the empty string, which still splits into one empty row-group with no
tokens). -/
theorem c9_no_values_one_empty_row (stmt : List Char) (c : Nat)
    (h : ¬ " VALUES ".data <:+: stmt) :
    (process_insert REQUIRED_FIELDS LINES_PER_FILE stmt c).1.written
        = [REQUIRED_FIELDS.map (fun _ => "")] ∧
    (process_insert REQUIRED_FIELDS LINES_PER_FILE stmt c).2 = 0 := by
  have hg : get_values stmt = [] := by
    unfold get_values
    rw [afterFirst_eq_nil_of_no_occurrence _ _ h]
    rfl
  rw [process_insert_eq]
  refine ⟨?_, rfl⟩
  rw [hg]
  have hrow : mapRow REQUIRED_FIELDS (columnsOf ([] : List Char))
      = REQUIRED_FIELDS.map (fun _ => "") := mapRow_nil REQUIRED_FIELDS
  show (parseValuesLoop REQUIRED_FIELDS LINES_PER_FILE [[]] c).written = _
  by_cases hlim : LINES_PER_FILE ≤ c + 1 <;>
    simp [parseValuesLoop, hlim, hrow]

/-- Witness for C9 at a concrete input: a statement with no values introducer
yields one all-empty row. -/
theorem c9_witness :
    ¬ " VALUES ".data <:+: "DROP TABLE t;".data ∧
    (process_insert REQUIRED_FIELDS LINES_PER_FILE "DROP TABLE t;".data 5).1.written
        = [REQUIRED_FIELDS.map (fun _ => "")] :=
  ⟨by decide,
    (c9_no_values_one_empty_row "DROP TABLE t;".data 5 (by decide)).1⟩

/-- C2 fails on the code: evaluating the spec's own example
`INSERT INTO t VALUES (1,'a','b',NULL,'c');` under schema
`{X:0, Y:2, Z:3}` yields the row `["", "b", ""]`, not `["1", "b", ""]` — the
value regex has one capture group (the quoted-string contents), so
`re.findall` returns the empty string for every bare-digit and `NULL` match,
losing the digit text `1` that the code's own `!= "NULL"` guard and comment
show it meant to keep. -/
theorem c2_example_eval :
    (process_insert [("X", 0), ("Y", 2), ("Z", 3)] LINES_PER_FILE
        "INSERT INTO t VALUES (1,'a','b',NULL,'c');".data 0).1.written
      = [["", "b", ""]] ∧
    (["", "b", ""] : List String) ≠ ["1", "b", ""] :=
  ⟨by decide, by decide⟩

/-- C8: the process exit dispatch of `main` returns status 0 exactly on normal
completion or a keyboard interrupt, and status 1 exactly on any other unhandled
exception (which is also logged to the error stream). -/
theorem c8_exit_codes (body : Except PyExc Unit) :
    ((mainExitDispatch body).1 = 0
        ↔ body = Except.ok () ∨ body = Except.error PyExc.keyboardInterrupt) ∧
    ((mainExitDispatch body).1 = 1
        ↔ ∃ m, body = Except.error (PyExc.other m)) ∧
    (∀ m, body = Except.error (PyExc.other m) →
        (mainExitDispatch body).2 = ["Unhandled exception: " ++ m]) := by
  rcases body with e | u
  · cases e <;> simp [mainExitDispatch]
  · simp [mainExitDispatch]

/-- Witness for C8: an unhandled exception exits with status 1. -/
theorem c8_witness :
    (mainExitDispatch (Except.error (PyExc.other "boom"))).1 = 1 :=
  (c8_exit_codes (Except.error (PyExc.other "boom"))).2.1.mpr ⟨"boom", rfl⟩

/-- C5 fails on the code: the single input line `bigLine` carries a statement
with exactly 10000 row-groups (the threshold); because the introducer branch
never checks the terminator it is flushed only at end of input, where `main`
ignores the rotation signal of `process_insert` (source line 114).  The
statement writes exactly `LINES_PER_FILE` rows and signals rotation (the
counter even resets to zero), yet the run produces exactly one file — zero
file rotations — contradicting the claim that writing exactly threshold rows
produces exactly one file rotation. -/
theorem c5_counterexample :
    (process_insert REQUIRED_FIELDS LINES_PER_FILE (stmtOf 9999) 0).1.written.length
        = LINES_PER_FILE ∧
    (process_insert REQUIRED_FIELDS LINES_PER_FILE (stmtOf 9999) 0).1.rotate = true ∧
    (runMain [bigLine]).files.length = 1 ∧
    (runMain [bigLine]).counter = 0 := by
  have hpi : process_insert REQUIRED_FIELDS LINES_PER_FILE (stmtOf 9999) 0
      = (parseValuesLoop REQUIRED_FIELDS LINES_PER_FILE (List.replicate 10000 ['1']) 0, 0) :=
    process_insert_stmtOf 9999 0
  obtain ⟨hw, hr, hcnt⟩ := parseValuesLoop_spec REQUIRED_FIELDS LINES_PER_FILE
      (List.replicate 10000 ['1']) 0 (by norm_num [LINES_PER_FILE])
  have hle : LINES_PER_FILE ≤ 0 + (List.replicate 10000 (['1'] : List Char)).length := by
    rw [List.length_replicate]
    decide
  have hlen : (parseValuesLoop REQUIRED_FIELDS LINES_PER_FILE
      (List.replicate 10000 ['1']) 0).written.length = 10000 := by
    rw [hw, List.length_map, List.length_take, List.length_replicate]
    norm_num [LINES_PER_FILE]
  have hrot : (parseValuesLoop REQUIRED_FIELDS LINES_PER_FILE
      (List.replicate 10000 ['1']) 0).rotate = true := by
    rw [hr]
    exact hle
  have hc0 : (parseValuesLoop REQUIRED_FIELDS LINES_PER_FILE
      (List.replicate 10000 ['1']) 0).counter = 0 := by
    rw [hcnt, if_pos hle]
  have hins : is_insert (stmtOf 9999) = true := by
    unfold is_insert
    rw [pyStrip_stmtOf]
    rfl
  have hrm := runMain_single bigLine (pyStrip_stmtOf 9999) hins rfl
  have hbd : bigLine.data = stmtOf 9999 := rfl
  rw [hbd] at hrm
  refine ⟨?_, ?_, ?_, ?_⟩
  · rw [hpi]
    exact hlen
  · rw [hpi]
    exact hrot
  · rw [hrm.1]
    rfl
  · rw [hrm.2, hpi]
    exact hc0

/-- C5 amended: starting from a counter below the threshold, the counter
observed at the start of every processed row-group stays in `[0, threshold)`;
the rotation signal is produced exactly when the counter reaches the
threshold — not before, not after — with the counter reset to zero, and each
in-loop statement flush performs exactly one file rotation exactly when the
signal is set.  But the end-of-input flush discards the signal, so writing
exactly threshold rows produces exactly one file rotation only when the
threshold is not reached during the final flush. -/
theorem c5_amended_rotation_signal (groups : List (List Char)) (c : Nat)
    (h : c < LINES_PER_FILE) :
    (∀ i, i < (parseValuesLoop REQUIRED_FIELDS LINES_PER_FILE groups c).written.length →
        c + i < LINES_PER_FILE) ∧
    ((parseValuesLoop REQUIRED_FIELDS LINES_PER_FILE groups c).rotate = true
        ↔ c + (parseValuesLoop REQUIRED_FIELDS LINES_PER_FILE groups c).written.length
            = LINES_PER_FILE) ∧
    ((parseValuesLoop REQUIRED_FIELDS LINES_PER_FILE groups c).rotate = true →
        (parseValuesLoop REQUIRED_FIELDS LINES_PER_FILE groups c).counter = 0) ∧
    ((parseValuesLoop REQUIRED_FIELDS LINES_PER_FILE groups c).rotate = false →
        (parseValuesLoop REQUIRED_FIELDS LINES_PER_FILE groups c).counter
          = c + (parseValuesLoop REQUIRED_FIELDS LINES_PER_FILE groups c).written.length) ∧
    (parseValuesLoop REQUIRED_FIELDS LINES_PER_FILE groups c).counter < LINES_PER_FILE ∧
    (∀ st stmt, (flushStatement st stmt).files.length
        = if (process_insert REQUIRED_FIELDS LINES_PER_FILE stmt st.counter).1.rotate = true
          then st.files.length + 1 else st.files.length) := by
  obtain ⟨hw, hr, hcnt⟩ :=
    parseValuesLoop_spec REQUIRED_FIELDS LINES_PER_FILE groups c h
  have hlen : (parseValuesLoop REQUIRED_FIELDS LINES_PER_FILE groups c).written.length
      = min (LINES_PER_FILE - c) groups.length := by
    rw [hw, List.length_map, List.length_take]
  refine ⟨?_, ?_, ?_, ?_, ?_, ?_⟩
  · intro i hi
    rw [hlen] at hi
    omega
  · rw [hr, hlen]
    omega
  · intro hrot
    rw [hr] at hrot
    rw [hcnt, if_pos hrot]
  · intro hrot
    have hnrot : ¬ LINES_PER_FILE ≤ c + groups.length := by
      intro hle
      rw [hrot] at hr
      simp only [Bool.false_eq_true, false_iff] at hr
      exact hr hle
    rw [hcnt, if_neg hnrot, hlen]
    omega
  · rw [hcnt]
    split <;> omega
  · intro st stmt
    unfold flushStatement
    by_cases hrot : (process_insert REQUIRED_FIELDS LINES_PER_FILE stmt st.counter).1.rotate = true
    · simp [hrot]
    · simp only [Bool.not_eq_true] at hrot
      simp [hrot]

/-- Witness for C5 amended statement at a concrete input: two row-groups
starting one row below the threshold leave the counter below the threshold. -/
theorem c5_amended_witness :
    (parseValuesLoop REQUIRED_FIELDS LINES_PER_FILE [[], []] 9999).counter
        < LINES_PER_FILE :=
  (c5_amended_rotation_signal [[], []] 9999 (by decide)).2.2.2.2.1

/-- C1 fails on the code: the statement `INSERT INTO t VALUES (1),(2);` splits
into two row-groups, yet processing it with the counter at 9999 (one below the
threshold) writes only one output row — `parse_values` returns from inside its
loop as soon as the counter reaches the threshold, discarding the remaining
row-groups of the statement. -/
theorem c1_counterexample :
    (splitRowGroups (stripParens
        (get_values "INSERT INTO t VALUES (1),(2);".data))).length = 2 ∧
    (process_insert REQUIRED_FIELDS LINES_PER_FILE
        "INSERT INTO t VALUES (1),(2);".data 9999).1.written.length = 1 :=
  ⟨by decide, by decide⟩

/-- C1 amended: a statement whose values split into `N` row-groups writes
exactly `min N (threshold - counter)` rows; in particular it writes exactly
`N` rows whenever no rotation triggers during the statement, while a rotation
mid-statement discards the remaining row-groups. -/
theorem c1_amended_rows_written (stmt : List Char) (c : Nat)
    (h : c < LINES_PER_FILE) :
    (process_insert REQUIRED_FIELDS LINES_PER_FILE stmt c).1.written.length
        = min (splitRowGroups (stripParens (get_values stmt))).length
            (LINES_PER_FILE - c) ∧
    ((process_insert REQUIRED_FIELDS LINES_PER_FILE stmt c).1.rotate = false →
      (process_insert REQUIRED_FIELDS LINES_PER_FILE stmt c).1.written.length
        = (splitRowGroups (stripParens (get_values stmt))).length) := by
  rw [process_insert_eq, parse_values_def]
  obtain ⟨hw, hr, hcnt⟩ := parseValuesLoop_spec REQUIRED_FIELDS LINES_PER_FILE
    (splitRowGroups (stripParens (get_values stmt))) c h
  have hlen : (parseValuesLoop REQUIRED_FIELDS LINES_PER_FILE
        (splitRowGroups (stripParens (get_values stmt))) c).written.length
      = min (LINES_PER_FILE - c)
          (splitRowGroups (stripParens (get_values stmt))).length := by
    rw [hw, List.length_map, List.length_take]
  refine ⟨by rw [hlen]; omega, ?_⟩
  intro hrot
  have hnrot : ¬ LINES_PER_FILE
      ≤ c + (splitRowGroups (stripParens (get_values stmt))).length := by
    intro hle
    rw [hrot] at hr
    simp only [Bool.false_eq_true, false_iff] at hr
    exact hr hle
  rw [hlen]
  omega

/-- Witness for C1's amended statement at a concrete input. -/
theorem c1_amended_witness :
    (process_insert REQUIRED_FIELDS LINES_PER_FILE
        "INSERT INTO t VALUES (3),(4);".data 0).1.written.length
      = min (splitRowGroups (stripParens
            (get_values "INSERT INTO t VALUES (3),(4);".data))).length
          (LINES_PER_FILE - 0) :=
  (c1_amended_rows_written "INSERT INTO t VALUES (3),(4);".data 0 (by decide)).1

/-- C3 fails on the code: the statement `INSERT INTO t VALUES (1,'a';` has
unbalanced parentheses, yet processing it writes one output row and emits zero
diagnostics — nothing in the extraction pipeline raises, so the claimed
zero-rows-plus-one-diagnostic behaviour never happens for malformed text. -/
theorem c3_counterexample :
    (process_insert REQUIRED_FIELDS LINES_PER_FILE
        "INSERT INTO t VALUES (1,'a';".data 0).1.written.length = 1 ∧
    (process_insert REQUIRED_FIELDS LINES_PER_FILE
        "INSERT INTO t VALUES (1,'a';".data 0).2 = 0 :=
  ⟨by decide, by decide⟩

/-- C3 amended: processing any statement — well-formed or not — emits no
diagnostic and writes at least one output row (the splitter always yields at
least one row-group and the tokenizer accepts any text); the error branch that
would write zero rows and one diagnostic is reachable only through a failure of
the output writer, never through the shape of the statement text. -/
theorem c3_amended_no_error_path (stmt : List Char) (c : Nat)
    (h : c < LINES_PER_FILE) :
    (process_insert REQUIRED_FIELDS LINES_PER_FILE stmt c).2 = 0 ∧
    1 ≤ (process_insert REQUIRED_FIELDS LINES_PER_FILE stmt c).1.written.length := by
  rw [process_insert_eq, parse_values_def]
  refine ⟨rfl, ?_⟩
  obtain ⟨hw, _, _⟩ := parseValuesLoop_spec REQUIRED_FIELDS LINES_PER_FILE
    (splitRowGroups (stripParens (get_values stmt))) c h
  have hpos := splitRowGroups_length_pos (stripParens (get_values stmt))
  rw [hw, List.length_map, List.length_take]
  omega

/-- Witness for C3's amended statement at a concrete input. -/
theorem c3_amended_witness :
    (process_insert REQUIRED_FIELDS LINES_PER_FILE
        "INSERT INTO t VALUES ((((;".data 7).2 = 0 :=
  (c3_amended_no_error_path "INSERT INTO t VALUES ((((;".data 7 (by decide)).1

/-- C4 fails on the code: the first input line is a complete introducer
statement ending in the terminator, yet it is not flushed on its own — the
introducer branch never checks the terminator, so the following non-introducer
line `junk;` is appended and the two lines are flushed as one statement. -/
theorem c4_counterexample :
    ((pyStrip "INSERT INTO t VALUES (1);".data).getLast?
        == some ';') = true ∧
    is_insert (pyStrip "INSERT INTO t VALUES (1);".data) = true ∧
    (runMain ["INSERT INTO t VALUES (1);", "junk;"]).flushed
      = ["INSERT INTO t VALUES (1); junk;"] :=
  ⟨by decide, by decide, by decide⟩

/-- C4 amended: the terminator check happens only in the appending branch —
whenever a non-introducer line is appended to a non-empty buffer and the line
(hence the buffer after appending) ends with the terminator, the combined
statement is flushed and the buffer is cleared before any later line is
processed; an introducer line itself is never checked for the terminator. -/
theorem c4_amended_flush_on_append (st : MState) (rawLine : String)
    (hb : st.buffer.isEmpty = false)
    (hi : is_insert (pyStrip rawLine.data) = false)
    (ht : ((pyStrip rawLine.data).getLast? == some ';') = true) :
    (mainStep st rawLine).buffer = [] ∧
    (mainStep st rawLine).flushed
      = st.flushed ++ [String.mk (st.buffer ++ ' ' :: pyStrip rawLine.data)] := by
  simp only [mainStep, hi, hb, ht, Bool.false_eq_true, if_false,
    if_true, eq_self_iff_true]
  refine ⟨trivial, ?_⟩
  exact flushStatement_flushed ..

/-- Witness for C4's amended statement at a concrete input. -/
theorem c4_amended_witness :
    (mainStep ⟨"INSERT INTO t VALUES (7);".data, [], [headerRow], 0, []⟩
        "more;").buffer = [] :=
  (c4_amended_flush_on_append
      ⟨"INSERT INTO t VALUES (7);".data, [], [headerRow], 0, []⟩ "more;"
      (by decide) (by decide) (by decide)).1

/-- C6: every output file the run produces — the first file and every file
opened by a rotation, including the one still open at the end — begins with
the header row, whose cells are the configured field names in schema order. -/
theorem c6_every_file_begins_with_header (lines : List String)
    (f : List (List String)) (hf : f ∈ (runMain lines).files) :
    ∃ d, f = headerRow :: d := by
  have h0 : filesInv initState :=
    ⟨fun g hg => absurd hg (List.not_mem_nil g), ⟨[], rfl⟩⟩
  have h1 : filesInv (lines.foldl mainStep initState) :=
    foldl_inv lines initState h0
  revert hf
  unfold runMain
  generalize hG : lines.foldl mainStep initState = st at h1 ⊢
  obtain ⟨hfs, d, hc⟩ := h1
  by_cases hb : st.buffer.isEmpty = true
  · simp only [hb, eq_self_iff_true, if_true]
    intro hf
    rcases List.mem_append.1 hf with hm | hm
    · exact hfs f hm
    · exact ⟨d, by rw [List.mem_singleton.1 hm, hc]⟩
  · simp only [hb, Bool.false_eq_true, if_false]
    intro hf
    rcases List.mem_append.1 hf with hm | hm
    · exact hfs f hm
    · refine ⟨d ++ (process_insert REQUIRED_FIELDS LINES_PER_FILE
          st.buffer st.counter).1.written, ?_⟩
      rw [List.mem_singleton.1 hm, hc, List.cons_append]

/-- Witness for C6 at a concrete input: the single file of an empty run is
exactly the header row. -/
theorem c6_witness :
    [headerRow] ∈ (runMain []).files ∧
    ∃ d, ([headerRow] : List (List String)) = headerRow :: d :=
  ⟨by decide, c6_every_file_begins_with_header [] [headerRow] (by decide)⟩
